import Mathlib

/-!
Verification development for the Smart To-Do Builder application
(single source file `app.py`).

The development shallowly embeds the pure logic of the application:

* JSON values and a model of the Python `json` module (`jsonParse`,
  mirroring `json.loads` in strict mode, and `pyDumps`, mirroring
  `json.dumps(..., ensure_ascii=False, indent=2)`).  Numbers are modeled
  as exact rationals (Python `int` and `float` collapse into one
  constructor); the non-standard `NaN` / `Infinity` literals and lone
  surrogate escapes are outside the model.
* the feedback-memory helpers `tokenize`, `load_memory`, `save_memory`,
  `record_feedback` and the similarity matcher `find_similar_examples`
  (file input and output is modeled by passing the decoded store, a list
  of `MemoryRecord` values, explicitly; the on-disk file is modeled as an
  optional string of contents).
* the prompt builder `build_prompt`.
* the reply parser and normalizer inside `call_openai_generate`
  (`parseStage`, `normalizeTodos`, `parseAndNormalize`), where
  `uuid.uuid4()` is modeled by an explicit supply of fresh id strings and
  an uncaught Python exception (for example `.get` on a non-dict) is
  modeled by the dedicated result `pyCrash`.
* the generate-button handler acting on the session state
  (`generateHandler`).
-/

set_option maxRecDepth 10000

/-- JSON values as handled by the Python `json` module.  Numbers are
modeled as exact rationals: Python `int` and `float` collapse into the
single constructor `num`. -/
inductive Json where
  | null
  | bool (b : Bool)
  | num (q : ℚ)
  | str (s : String)
  | arr (elems : List Json)
  | obj (kvs : List (String × Json))

/-- Whether a JSON value is an object (a Python dict). -/
def Json.isObj : Json → Bool
  | .obj _ => true
  | _ => false

/-- Python truthiness of a JSON value, as used by `or` and `bool(...)` in
the source: `None`, `False`, `0`, the empty string, the empty list and
the empty dict are falsy, everything else is truthy. -/
def Json.truthy : Json → Bool
  | .null => false
  | .bool b => b
  | .num q => decide (q ≠ 0)
  | .str s => decide (s ≠ "")
  | .arr l => !l.isEmpty
  | .obj l => !l.isEmpty

/-- Insertion into a Python dict modeled as an association list with
unique keys: assigning an existing key replaces the value in place
(keeping the original insertion position), a new key is appended. -/
def objInsert (kvs : List (String × Json)) (k : String) (v : Json) :
    List (String × Json) :=
  if kvs.any (fun p => p.1 = k) then
    kvs.map (fun p => if p.1 = k then (k, v) else p)
  else kvs ++ [(k, v)]

/-- Lookup in a Python dict modeled as an association list
(`d.get(k)` returning `None` becomes `none`). -/
def objGet (kvs : List (String × Json)) (k : String) : Option Json :=
  (kvs.find? (fun p => p.1 = k)).map (fun p => p.2)

/-- JSON whitespace, exactly the four characters skipped by the Python
decoder. -/
def isJsonWs (c : Char) : Bool :=
  c = ' ' || c = '\t' || c = '\n' || c = '\r'

/-- Skip leading JSON whitespace. -/
def skipWs : List Char → List Char
  | [] => []
  | c :: cs => if isJsonWs c then skipWs cs else c :: cs

/-- Value of one hexadecimal digit, accepting both cases. -/
def hexVal : Char → Option Nat
  | c =>
    if c.isDigit then some (c.toNat - 48)
    else if 'a' ≤ c && c ≤ 'f' then some (c.toNat - 87)
    else if 'A' ≤ c && c ≤ 'F' then some (c.toNat - 70)
    else none

/-- Body of a JSON string after the opening quote, in strict mode: raw
control characters are rejected, the standard escapes are decoded, and a
high and low surrogate escape pair is combined into one character.
Returns the decoded characters and the input following the closing
quote.  (A lone surrogate escape, which Python would keep as a lone
surrogate code unit, is outside the model of `Char`.) -/
def parseStrBody : Nat → List Char → Option (List Char × List Char)
  | 0, _ => none
  | _, [] => none
  | fuel + 1, c :: cs =>
    if c = '"' then some ([], cs)
    else if c = '\\' then
      match cs with
      | [] => none
      | e :: r =>
        if e = '"' then (parseStrBody fuel r).map (fun p => ('"' :: p.1, p.2))
        else if e = '\\' then (parseStrBody fuel r).map (fun p => ('\\' :: p.1, p.2))
        else if e = '/' then (parseStrBody fuel r).map (fun p => ('/' :: p.1, p.2))
        else if e = 'b' then (parseStrBody fuel r).map (fun p => (Char.ofNat 8 :: p.1, p.2))
        else if e = 'f' then (parseStrBody fuel r).map (fun p => (Char.ofNat 12 :: p.1, p.2))
        else if e = 'n' then (parseStrBody fuel r).map (fun p => ('\n' :: p.1, p.2))
        else if e = 'r' then (parseStrBody fuel r).map (fun p => ('\r' :: p.1, p.2))
        else if e = 't' then (parseStrBody fuel r).map (fun p => ('\t' :: p.1, p.2))
        else if e = 'u' then
          match r with
          | h1 :: h2 :: h3 :: h4 :: r2 =>
            match hexVal h1, hexVal h2, hexVal h3, hexVal h4 with
            | some a, some b, some c3, some d =>
              let u := ((a * 16 + b) * 16 + c3) * 16 + d
              if 0xD800 ≤ u && u ≤ 0xDBFF then
                match r2 with
                | '\\' :: 'u' :: g1 :: g2 :: g3 :: g4 :: r3 =>
                  match hexVal g1, hexVal g2, hexVal g3, hexVal g4 with
                  | some a2, some b2, some c4, some d2 =>
                    let v := ((a2 * 16 + b2) * 16 + c4) * 16 + d2
                    if 0xDC00 ≤ v && v ≤ 0xDFFF then
                      (parseStrBody fuel r3).map
                        (fun p =>
                          (Char.ofNat (0x10000 + (u - 0xD800) * 0x400 + (v - 0xDC00)) :: p.1,
                            p.2))
                    else
                      (parseStrBody fuel r2).map (fun p => (Char.ofNat u :: p.1, p.2))
                  | _, _, _, _ =>
                    (parseStrBody fuel r2).map (fun p => (Char.ofNat u :: p.1, p.2))
                | _ =>
                  (parseStrBody fuel r2).map (fun p => (Char.ofNat u :: p.1, p.2))
              else
                (parseStrBody fuel r2).map (fun p => (Char.ofNat u :: p.1, p.2))
            | _, _, _, _ => none
          | _ => none
        else none
    else if c.toNat < 0x20 then none
    else (parseStrBody fuel cs).map (fun p => (c :: p.1, p.2))

/-- Numeric value of a list of decimal digits. -/
def digitsToNat (ds : List Char) : Nat :=
  ds.foldl (fun a c => a * 10 + (c.toNat - 48)) 0

/-- Parse a JSON number (the regular expression
`-?(0|[1-9][0-9]*)(.[0-9]+)?([eE][+-]?[0-9]+)?` of the Python decoder),
returning its exact rational value and the remaining input. -/
def parseNum (cs : List Char) : Option (Json × List Char) :=
  let (neg, cs1) :=
    match cs with
    | '-' :: r => (true, r)
    | _ => (false, cs)
  match cs1 with
  | [] => none
  | c :: _ =>
    if ¬ c.isDigit then none
    else
      let intDs := cs1.takeWhile Char.isDigit
      let rest1 := cs1.dropWhile Char.isDigit
      if intDs.head? = some '0' ∧ intDs.length ≠ 1 then none
      else
        let (fracDs, rest2) :=
          match rest1 with
          | '.' :: d :: _ =>
            if d.isDigit then
              ((rest1.drop 1).takeWhile Char.isDigit,
                (rest1.drop 1).dropWhile Char.isDigit)
            else ([], rest1)
          | _ => ([], rest1)
        let expParse : Option (Int × List Char) :=
          match rest2 with
          | e :: r3 =>
            if e = 'e' ∨ e = 'E' then
              match r3 with
              | '+' :: d :: _ =>
                if d.isDigit then
                  some ((digitsToNat ((r3.drop 1).takeWhile Char.isDigit) : Int),
                    (r3.drop 1).dropWhile Char.isDigit)
                else none
              | '-' :: d :: _ =>
                if d.isDigit then
                  some (-(digitsToNat ((r3.drop 1).takeWhile Char.isDigit) : Int),
                    (r3.drop 1).dropWhile Char.isDigit)
                else none
              | d :: _ =>
                if d.isDigit then
                  some ((digitsToNat (r3.takeWhile Char.isDigit) : Int),
                    r3.dropWhile Char.isDigit)
                else none
              | [] => none
            else none
          | [] => none
        let (expo, rest3) :=
          match expParse with
          | some (e, r) => (e, r)
          | none => ((0 : Int), rest2)
        let mantissa : Nat :=
          digitsToNat intDs * 10 ^ fracDs.length + digitsToNat fracDs
        let signed : Int := if neg then -(mantissa : Int) else (mantissa : Int)
        let value : ℚ :=
          match expo with
          | .ofNat e => mkRat (signed * (10 : Int) ^ e) (10 ^ fracDs.length)
          | .negSucc e => mkRat signed (10 ^ fracDs.length * 10 ^ (e + 1))
        some (Json.num value, rest3)

mutual

/-- Parse one JSON value from the input (model of the Python decoder
`scan_once`, strict mode); fuel bounds the recursion depth. -/
def parseVal : Nat → List Char → Option (Json × List Char)
  | 0, _ => none
  | fuel + 1, cs =>
    match cs with
    | '{' :: rest => parseObjBody fuel (skipWs rest)
    | '[' :: rest => parseArrBody fuel (skipWs rest)
    | '"' :: rest =>
      (parseStrBody (fuel + 1) rest).map (fun p => (Json.str (String.mk p.1), p.2))
    | 't' :: 'r' :: 'u' :: 'e' :: rest => some (Json.bool true, rest)
    | 'f' :: 'a' :: 'l' :: 's' :: 'e' :: rest => some (Json.bool false, rest)
    | 'n' :: 'u' :: 'l' :: 'l' :: rest => some (Json.null, rest)
    | _ => parseNum cs

/-- Parse an object body after the opening brace (whitespace already
skipped). -/
def parseObjBody : Nat → List Char → Option (Json × List Char)
  | 0, _ => none
  | fuel + 1, cs =>
    match cs with
    | '}' :: rest => some (Json.obj [], rest)
    | _ => parseMembers fuel cs []

/-- Parse the members of an object: a quoted key, a colon, a value, then
either a comma and further members or the closing brace.  Duplicate keys
follow Python dict semantics via `objInsert`. -/
def parseMembers : Nat → List Char → List (String × Json) →
    Option (Json × List Char)
  | 0, _, _ => none
  | fuel + 1, cs, acc =>
    match cs with
    | '"' :: rest =>
      match parseStrBody (fuel + 1) rest with
      | none => none
      | some (kChars, r1) =>
        match skipWs r1 with
        | ':' :: r2 =>
          match parseVal fuel (skipWs r2) with
          | none => none
          | some (v, r3) =>
            let acc2 := objInsert acc (String.mk kChars) v
            match skipWs r3 with
            | ',' :: r4 =>
              match skipWs r4 with
              | '"' :: r5 => parseMembers fuel ('"' :: r5) acc2
              | _ => none
            | '}' :: r4 => some (Json.obj acc2, r4)
            | _ => none
        | _ => none
    | _ => none

/-- Parse an array body after the opening bracket (whitespace already
skipped). -/
def parseArrBody : Nat → List Char → Option (Json × List Char)
  | 0, _ => none
  | fuel + 1, cs =>
    match cs with
    | ']' :: rest => some (Json.arr [], rest)
    | _ => parseItems fuel cs []

/-- Parse the comma-separated items of an array. -/
def parseItems : Nat → List Char → List Json → Option (Json × List Char)
  | 0, _, _ => none
  | fuel + 1, cs, acc =>
    match parseVal fuel cs with
    | none => none
    | some (v, r1) =>
      match skipWs r1 with
      | ',' :: r2 => parseItems fuel (skipWs r2) (acc ++ [v])
      | ']' :: r2 => some (Json.arr (acc ++ [v]), r2)
      | _ => none

end

/-- Model of Python `json.loads` in strict mode: skip leading
whitespace, parse exactly one value, and require that only whitespace
follows; any error becomes `none` (`json.JSONDecodeError`). -/
def jsonParse (s : String) : Option Json :=
  match parseVal (4 * s.length + 16) (skipWs s.toList) with
  | some (v, rest) => if skipWs rest = [] then some v else none
  | none => none

/-- Characters matched by the token class of `re.findall` in `tokenize`:
the pattern is word characters plus the apostrophe.  ASCII word
characters are alphanumerics and the underscore; all characters outside
ASCII are treated as word characters, approximating the Unicode-aware
Python `\w`. -/
def isTokenChar (c : Char) : Bool :=
  c.isAlphanum || c = '_' || c = Char.ofNat 39 || decide (128 ≤ c.toNat)

/-- Accumulator-based splitting into maximal runs of token characters;
`acc` holds the reversed characters of the current run. -/
def splitTokensAux : List Char → List Char → List String
  | [], acc => if acc.isEmpty then [] else [String.mk acc.reverse]
  | c :: cs, acc =>
    if isTokenChar c then splitTokensAux cs (c :: acc)
    else if acc.isEmpty then splitTokensAux cs []
    else String.mk acc.reverse :: splitTokensAux cs []

/-- Maximal runs of token characters, the model of
`re.findall` with the token pattern. -/
def splitTokens (cs : List Char) : List String :=
  splitTokensAux cs []

/-- Model of Python `str.lower`, restricted to the ASCII case mapping of
`Char.toLower`. -/
def pyLower (s : String) : String :=
  String.mk (s.toList.map Char.toLower)

/-- The source function `tokenize`: the set of lowercased tokens of the
text. -/
def tokenize (text : String) : Finset String :=
  ((splitTokens text.toList).map pyLower).toFinset

/-- A record of the feedback memory store, the shape written by
`record_feedback` (see the data model of the specification). -/
structure MemoryRecord where
  summary : String
  ai_todos : Json
  approved_todos : Json

/-- The retention cap `MAX_MEMORY_ITEMS` of the memory store. -/
def MAX_MEMORY_ITEMS : Nat := 25

/-- The source function `load_memory`, with the file modeled as an
optional string of contents: a missing file or contents that do not
decode as JSON yield the empty list. -/
def load_memory (file : Option String) : Json :=
  match file with
  | none => Json.arr []
  | some contents =>
    match jsonParse contents with
    | some v => v
    | none => Json.arr []

/-- The source function `save_memory`: the store is trimmed to the last
`MAX_MEMORY_ITEMS` records (`memory[-25:]`) and written out; the write
is modeled by returning the trimmed store. -/
def save_memory (memory : List MemoryRecord) : List MemoryRecord :=
  memory.drop (memory.length - MAX_MEMORY_ITEMS)

/-- The source function `record_feedback`: a no-op on an empty summary,
otherwise the new record is appended to the loaded store and the result
saved. -/
def record_feedback (summaryText : String) (aiTodos editedTodos : Json)
    (store : List MemoryRecord) : List MemoryRecord :=
  if summaryText = "" then store
  else save_memory (store ++ [⟨summaryText, aiTodos, editedTodos⟩])

/-- The Jaccard similarity computed inside `find_similar_examples`:
intersection size over union size (the exact rational quotient of the
two cardinalities), with the guard returning `0` on an empty union. -/
def jaccardScore (a b : Finset String) : ℚ :=
  if (a ∪ b).card = 0 then 0
  else mkRat ((a ∩ b).card : Int) ((a ∪ b).card)

/-- The list `scored` built by `find_similar_examples`: every stored
record whose summary has a nonempty token set and a positive score,
paired with its score, in store order. -/
def scoredExamples (target : Finset String) (memory : List MemoryRecord) :
    List (ℚ × MemoryRecord) :=
  memory.filterMap (fun item =>
    let ct := tokenize item.summary
    if ct = ∅ then none
    else
      let score := jaccardScore target ct
      if 0 < score then some (score, item) else none)

/-- The ordering used to model the stable Python
`scored.sort(key=lambda x: x[0], reverse=True)`: `a` may precede `b`
when the score of `b` is at most the score of `a`. -/
def scoreGE (a b : ℚ × MemoryRecord) : Prop := b.1 ≤ a.1

instance : DecidableRel scoreGE := fun a b =>
  inferInstanceAs (Decidable (b.1 ≤ a.1))

instance : IsTotal (ℚ × MemoryRecord) scoreGE :=
  ⟨fun a b => le_total b.1 a.1⟩

instance : IsTrans (ℚ × MemoryRecord) scoreGE :=
  ⟨fun _ _ _ h1 h2 => le_trans h2 h1⟩

/-- Stable descending sort by score: insertion sort with `scoreGE` is
extensionally the stable Python sort with `reverse=True` on the score
key. -/
def sortScored (l : List (ℚ × MemoryRecord)) : List (ℚ × MemoryRecord) :=
  l.insertionSort scoreGE

/-- The source function `find_similar_examples`, with the store passed
explicitly in place of the `load_memory()` call. -/
def find_similar_examples (summaryText : String)
    (memory : List MemoryRecord) (maxExamples : Nat) : List MemoryRecord :=
  if memory.isEmpty then []
  else
    let target := tokenize summaryText
    if target = ∅ then []
    else
      ((sortScored (scoredExamples target memory)).take maxExamples).map
        (fun p => p.2)

/-- A run of `n` spaces, used for indentation by the serializer. -/
def pad (n : Nat) : String := String.mk (List.replicate n ' ')

/-- Lowercase hexadecimal digit. -/
def hexDigit (n : Nat) : Char :=
  if n < 10 then Char.ofNat (48 + n) else Char.ofNat (87 + n)

/-- Escaping of one character inside a serialized JSON string with
`ensure_ascii=False`: backslash, quote and the control characters are
escaped, everything else is kept literally. -/
def escStrChar (c : Char) : String :=
  if c = '\\' then "\\\\"
  else if c = '"' then "\\\x22"
  else if c = '\n' then "\\n"
  else if c = '\r' then "\\r"
  else if c = '\t' then "\\t"
  else if c = Char.ofNat 8 then "\\b"
  else if c = Char.ofNat 12 then "\\f"
  else if c.toNat < 0x20 then
    "\\u00" ++ String.mk [hexDigit (c.toNat / 16), hexDigit (c.toNat % 16)]
  else String.mk [c]

/-- Serialization of a string by `json.dumps(..., ensure_ascii=False)`. -/
def pyDumpStr (s : String) : String :=
  "\x22" ++ String.join (s.toList.map escStrChar) ++ "\x22"

/-- Serialization of a number.  An integral rational prints as the
Python `int`; the printing of non-integral numbers (Python `float`
`repr`) is modeled by the rational notation. -/
def pyDumpNum (q : ℚ) : String :=
  if q.den = 1 then toString q.num else toString q

mutual

/-- Model of `json.dumps(v, ensure_ascii=False, indent=2)` at a given
nesting level (the top-level call uses level `0`). -/
def pyDumps (level : Nat) : Json → String
  | .null => "null"
  | .bool true => "true"
  | .bool false => "false"
  | .num q => pyDumpNum q
  | .str s => pyDumpStr s
  | .arr [] => "[]"
  | .arr (x :: xs) =>
    "[\n" ++ pyDumpItems (level + 1) (x :: xs) ++ "\n" ++ pad (2 * level) ++ "]"
  | .obj [] => "\x7b\x7d"
  | .obj (kv :: kvs) =>
    "\x7b\n" ++ pyDumpMembers (level + 1) (kv :: kvs) ++ "\n" ++
      pad (2 * level) ++ "\x7d"

/-- The comma-and-newline separated, indented items of a serialized
array. -/
def pyDumpItems (level : Nat) : List Json → String
  | [] => ""
  | [x] => pad (2 * level) ++ pyDumps level x
  | x :: y :: xs =>
    pad (2 * level) ++ pyDumps level x ++ ",\n" ++ pyDumpItems level (y :: xs)

/-- The comma-and-newline separated, indented members of a serialized
object. -/
def pyDumpMembers (level : Nat) : List (String × Json) → String
  | [] => ""
  | [(k, v)] => pad (2 * level) ++ pyDumpStr k ++ ": " ++ pyDumps level v
  | (k, v) :: kv2 :: kvs =>
    pad (2 * level) ++ pyDumpStr k ++ ": " ++ pyDumps level v ++ ",\n" ++
      pyDumpMembers level (kv2 :: kvs)

end

/-- The literal triple-quote token the source wraps the input text in. -/
def tripleQuote : String := "\x22\x22\x22"

/-- The fixed leading lines of the prompt built by `build_prompt`: task
framing, output schema and the first three rules. -/
def promptHeader : List String :=
  ["You are an AI operations assistant. Convert the provided summary into actionable todos.",
   "Return ONLY valid JSON with this schema:",
   "\x7b",
   "  \x22todos\x22: [",
   "    \x7b",
   "      \x22id\x22: \x22<unique id>\x22,",
   "      \x22todo_type\x22: \x22purchase|action\x22,",
   "      \x22purchase_item\x22: \x22<item to purchase or empty>\x22,",
   "      \x22action\x22: \x22<specific action steps, 6-24 words>\x22,",
   "      \x22assign_to\x22: \x22<responsible person or role>\x22,",
   "      \x22urgency\x22: \x22critical|high|medium|low\x22,",
   "      \x22ddl\x22: \x22<ISO date YYYY-MM-DD or relative deadline>\x22",
   "    \x7d",
   "  ]",
   "\x7d",
   "Rules:",
   "- Every todo must include an action description.",
   "- If todo_type is \x27purchase\x27, describe the item in purchase_item and outline the follow-up action.",
   "- Infer urgency and deadlines when possible; otherwise provide a reasonable default."]

/-- The rule line with the tone label interpolated
(`"... keeping the tone \x7b\x7d.".format(tone_choice)`). -/
def toneLine (toneChoice : String) : String :=
  "- Prioritize clarity and completeness while keeping the tone " ++
    toneChoice ++ "."

/-- One serialized example record inside the prompt: the summary
truncated to 500 characters together with the approved todos. -/
def exampleLine (ex : MemoryRecord) : String :=
  pyDumps 0 (Json.obj
    [("summary", Json.str (ex.summary.take 500)),
     ("approved_todos", ex.approved_todos)])

/-- All lines of the prompt, in order. -/
def promptLines (summaryText toneChoice : String)
    (examples : List MemoryRecord) : List String :=
  promptHeader ++ [toneLine toneChoice] ++
    (if examples.isEmpty then []
     else
       "Use the patterns from these previously approved todos when relevant:" ::
         examples.map exampleLine) ++
    ["Meeting summary:",
     tripleQuote ++ summaryText ++ tripleQuote,
     "Return valid JSON only."]

/-- Model of `"\n".join`. -/
def joinLines : List String → String
  | [] => ""
  | [x] => x
  | x :: y :: xs => x ++ "\n" ++ joinLines (y :: xs)

/-- The source function `build_prompt`. -/
def build_prompt (summaryText toneChoice : String)
    (examples : List MemoryRecord) : String :=
  joinLines (promptLines summaryText toneChoice examples)

/-- Substring relation on strings (decidable). -/
def strContains (hay needle : String) : Prop :=
  needle.toList <:+: hay.toList

instance (hay needle : String) : Decidable (strContains hay needle) :=
  inferInstanceAs (Decidable (needle.toList <:+: hay.toList))

/-- Suffix relation on strings (decidable). -/
def strEndsWith (hay needle : String) : Prop :=
  needle.toList <:+ hay.toList

instance (hay needle : String) : Decidable (strEndsWith hay needle) :=
  inferInstanceAs (Decidable (needle.toList <:+ hay.toList))

/-- The fixed record shape produced by the normalizer in
`call_openai_generate`.  Field values are arbitrary JSON values, as in
the dynamically typed source; only `done` is coerced with `bool(...)`. -/
structure TodoItem where
  id : Json
  todo_type : Json
  purchase_item : Json
  action : Json
  assign_to : Json
  urgency : Json
  ddl : Json
  done : Bool

/-- Field access `todo.get(k, dflt)` on a JSON object. -/
def getField (kvs : List (String × Json)) (k : String) (dflt : Json) : Json :=
  (objGet kvs k).getD dflt

/-- Normalization of one element of the `todos` list, with `uuid.uuid4`
modeled by the supply of fresh id strings and the running count `c` of
fresh ids drawn so far.  A non-object element makes the Python code
raise (`.get` on a non-dict), modeled by `none`. -/
def cleanTodo (supply : Nat → String) (c : Nat) :
    Json → Option (TodoItem × Nat)
  | .obj kvs =>
    let idv := (objGet kvs "id").getD Json.null
    let idPair : Json × Nat :=
      if idv.truthy then (idv, c) else (Json.str (supply c), c + 1)
    some
      ({ id := idPair.1,
         todo_type := getField kvs "todo_type" (Json.str "action"),
         purchase_item := getField kvs "purchase_item" (Json.str ""),
         action := getField kvs "action" (Json.str ""),
         assign_to := getField kvs "assign_to" (Json.str ""),
         urgency := getField kvs "urgency" (Json.str "medium"),
         ddl := getField kvs "ddl" (Json.str ""),
         done := (getField kvs "done" (Json.bool false)).truthy }, idPair.2)
  | _ => none

/-- Normalization of the elements of the `todos` list, in order,
threading the count of fresh ids drawn. -/
def cleanTodos (supply : Nat → String) : Nat → List Json →
    Option (List TodoItem)
  | _, [] => some []
  | c, t :: ts =>
    match cleanTodo supply c t with
    | none => none
    | some (it, c2) => (cleanTodos supply c2 ts).map (fun l => it :: l)

/-- The normalization step of `call_openai_generate`:
`parsed.get("todos", [])` followed by the cleaning loop.  `none` models
an uncaught Python exception: `parsed` not a dict, a `todos` value the
loop cannot iterate, or a non-dict element.  (Iterating an empty string
or an empty dict yields no elements, hence an empty result.) -/
def normalizeTodos (supply : Nat → String) : Json → Option (List TodoItem)
  | .obj kvs =>
    match (objGet kvs "todos").getD (Json.arr []) with
    | .arr l => cleanTodos supply 0 l
    | .str s => if s = "" then some [] else none
    | .obj kvs2 => if kvs2.isEmpty then some [] else none
    | _ => none
  | _ => none

/-- Index of the first occurrence of a character
(Python `text.index`). -/
def firstIdx (c : Char) : List Char → Option Nat
  | [] => none
  | x :: xs => if x = c then some 0 else (firstIdx c xs).map (· + 1)

/-- Index of the last occurrence of a character
(Python `text.rindex`). -/
def lastIdx (c : Char) (cs : List Char) : Option Nat :=
  (firstIdx c cs.reverse).map (fun k => cs.length - 1 - k)

/-- The recovery slice of the reply parser:
`text[text.index("\x7b") : text.rindex("\x7d") + 1]`, unavailable
(Python `ValueError`) when a brace is missing. -/
def sliceBraces (text : String) : Option String :=
  match firstIdx '{' text.toList, lastIdx '}' text.toList with
  | some s, some e =>
    some (String.mk ((text.toList.drop s).take (e + 1 - s)))
  | _, _ => none

/-- The parse step of `call_openai_generate`: a strict parse of the
full text, then on failure a parse of the brace-delimited slice, and on
failure of both the error display carrying the first 2000 characters of
the raw text. -/
def parseStage (text : String) : Except String Json :=
  match jsonParse text with
  | some v => .ok v
  | none =>
    match sliceBraces text with
    | none => .error (text.take 2000)
    | some sub =>
      match jsonParse sub with
      | some v => .ok v
      | none => .error (text.take 2000)

/-- Result of parsing and normalizing one raw reply text:
a surfaced `ParseError` with its diagnostic text, an uncaught Python
exception, or the normalized items. -/
inductive NormResult where
  | parseError (diag : String)
  | pyCrash
  | items (todos : List TodoItem)

/-- The full parse-and-normalize pipeline of `call_openai_generate`
applied to a raw reply text. -/
def parseAndNormalize (supply : Nat → String) (text : String) : NormResult :=
  match parseStage text with
  | .error d => .parseError d
  | .ok v =>
    match normalizeTodos supply v with
    | none => .pyCrash
    | some items => .items items

/-- The session state touched by the generate button handler: the
current to-do list, the original AI output and the last summary, each
possibly unset. -/
structure SessionState where
  todos : Option (List TodoItem)
  aiOriginalTodos : Option (List TodoItem)
  currentSummary : Option String

/-- Observable outcome of `call_openai_generate` (the network call
itself is modeled by the reply text handed in; an endpoint failure is
outside this model). -/
inductive CallOutcome where
  | noClient
  | emptyReply
  | parseFailed (diag : String)
  | ok (items : List TodoItem)
  | crash

/-- `call_openai_generate` from the received reply text on: the client
guard, the empty-reply guard, then parse and normalize. -/
def callOpenaiGenerate (supply : Nat → String) (clientPresent : Bool)
    (reply : String) : CallOutcome :=
  if ¬ clientPresent then .noClient
  else if reply = "" then .emptyReply
  else
    match parseAndNormalize supply reply with
    | .parseError d => .parseFailed d
    | .pyCrash => .crash
    | .items l => .ok l

/-- What the generate button handler displays. -/
inductive HandlerDisplay where
  | warned
  | failed (parseDiag : Option String)
  | succeeded (count : Nat)

/-- Length of `summary.strip()` (Python strips whitespace at both
ends). -/
def pyStripLen (s : String) : Nat :=
  ((s.toList.dropWhile Char.isWhitespace).reverse.dropWhile
    Char.isWhitespace).length

/-- The generate button handler: the short-summary guard, then the call;
only a nonempty item list updates the session state.  A `parseFailed`
call shows the parse diagnostic and the failure message, leaving the
state unchanged; `none` models the uncaught exception of a `pyCrash`. -/
def generateHandler (supply : Nat → String) (clientPresent : Bool)
    (reply summary : String) (st : SessionState) :
    Option (SessionState × HandlerDisplay) :=
  if summary = "" ∨ pyStripLen summary < 10 then some (st, .warned)
  else
    match callOpenaiGenerate supply clientPresent reply with
    | .crash => none
    | .noClient => some (st, .failed none)
    | .emptyReply => some (st, .failed none)
    | .parseFailed d => some (st, .failed (some d))
    | .ok [] => some (st, .failed none)
    | .ok (it :: its) =>
      some
        ({ todos := some (it :: its),
           aiOriginalTodos := some (it :: its),
           currentSummary := some summary },
          .succeeded (it :: its).length)

/-- The Jaccard score against an empty query token set is zero. -/
theorem jaccardScore_empty_left (b : Finset String) : jaccardScore ∅ b = 0 := by
  unfold jaccardScore
  by_cases h : (∅ ∪ b).card = 0 <;> simp [h]

/-- With an empty query token set no record is scored. -/
theorem scoredExamples_empty_target (memory : List MemoryRecord) :
    scoredExamples ∅ memory = [] := by
  unfold scoredExamples
  refine List.filterMap_eq_nil_iff.mpr (fun item _ => ?_)
  by_cases h : tokenize item.summary = ∅ <;>
    simp [h, jaccardScore_empty_left]

/-- Filtering an ordered insertion by an exact score: elements skipped
by the insertion have a strictly larger score, so the filter for the
score of the inserted element collects it first. -/
theorem filter_orderedInsert_score (q : ℚ) (x : ℚ × MemoryRecord)
    (l : List (ℚ × MemoryRecord)) :
    (l.orderedInsert scoreGE x).filter (fun p => decide (p.1 = q)) =
      if x.1 = q then x :: l.filter (fun p => decide (p.1 = q))
      else l.filter (fun p => decide (p.1 = q)) := by
  induction l with
  | nil =>
    by_cases hx : x.1 = q <;> simp [List.orderedInsert, hx]
  | cons y ys ih =>
    by_cases hr : scoreGE x y
    · by_cases hx : x.1 = q <;> by_cases hy : y.1 = q <;>
        simp [List.orderedInsert, hr, hx, hy]
    · have hlt : x.1 < y.1 := lt_of_not_le hr
      by_cases hx : x.1 = q <;> by_cases hy : y.1 = q
      · rw [hx, hy] at hlt
        exact absurd hlt (lt_irrefl q)
      · simp [List.orderedInsert, hr, hx, hy, ih]
      · simp [List.orderedInsert, hr, hx, hy, ih]
      · simp [List.orderedInsert, hr, hx, hy, ih]

/-- The stable sort preserves, for every score, the exact subsequence of
records carrying that score (stability). -/
theorem filter_sortScored (q : ℚ) (l : List (ℚ × MemoryRecord)) :
    (sortScored l).filter (fun p => decide (p.1 = q)) =
      l.filter (fun p => decide (p.1 = q)) := by
  induction l with
  | nil => rfl
  | cons x xs ih =>
    show (List.orderedInsert scoreGE x (sortScored xs)).filter _ = _
    rw [filter_orderedInsert_score]
    by_cases hx : x.1 = q <;> simp [hx, ih]

/-- Every scored entry comes from a stored record, carries its Jaccard
score against the query tokens, and that score is positive. -/
theorem mem_scoredExamples {target : Finset String}
    {memory : List MemoryRecord} {p : ℚ × MemoryRecord}
    (h : p ∈ scoredExamples target memory) :
    0 < p.1 ∧ p.1 = jaccardScore target (tokenize p.2.summary) ∧
      p.2 ∈ memory := by
  unfold scoredExamples at h
  obtain ⟨item, hitem, hf⟩ := List.mem_filterMap.mp h
  by_cases h1 : tokenize item.summary = ∅
  · simp [h1] at hf
  · by_cases h2 : 0 < jaccardScore target (tokenize item.summary)
    · simp [h1, h2] at hf
      subst hf
      exact ⟨h2, rfl, hitem⟩
    · simp [h1, h2] at hf

/-- C1: for every query text and memory store, the matcher returns at
most 3 records; the result is the top-3 of the stably descending-sorted
scored list with the record components projected out; every returned
entry has a positive Jaccard score between the tokenized query and the
tokenized record summary and stems from the store; the scores are in
descending order; and for every score value the entries carrying it
appear exactly as a prefix of their store-order subsequence (insertion
order, stability). -/
theorem C1_matcher_top3_sorted_positive (text : String)
    (memory : List MemoryRecord) :
    (find_similar_examples text memory 3).length ≤ 3 ∧
    find_similar_examples text memory 3 =
      ((sortScored (scoredExamples (tokenize text) memory)).take 3).map
        (fun p => p.2) ∧
    (∀ p ∈ (sortScored (scoredExamples (tokenize text) memory)).take 3,
      0 < p.1 ∧ p.1 = jaccardScore (tokenize text) (tokenize p.2.summary) ∧
        p.2 ∈ memory) ∧
    ((sortScored (scoredExamples (tokenize text) memory)).take 3).Pairwise
      scoreGE ∧
    (∀ q : ℚ,
      ((sortScored (scoredExamples (tokenize text) memory)).take 3).filter
          (fun p => decide (p.1 = q)) <+:
        (scoredExamples (tokenize text) memory).filter
          (fun p => decide (p.1 = q))) := by
  have heq : find_similar_examples text memory 3 =
      ((sortScored (scoredExamples (tokenize text) memory)).take 3).map
        (fun p => p.2) := by
    unfold find_similar_examples
    by_cases hm : memory.isEmpty
    · have : memory = [] := List.isEmpty_iff.mp hm
      subst this
      simp [hm, scoredExamples, sortScored, List.insertionSort]
    · by_cases ht : tokenize text = ∅
      · simp [hm, ht, scoredExamples_empty_target memory,
          sortScored, List.insertionSort]
      · simp [hm, ht]
  refine ⟨?_, heq, ?_, ?_, ?_⟩
  · rw [heq]
    simp only [List.length_map]
    exact le_trans (List.length_take_le 3 _) (le_refl 3)
  · intro p hp
    exact mem_scoredExamples
      ((List.perm_insertionSort scoreGE _).mem_iff.mp
        (List.mem_of_mem_take hp))
  · exact (List.sorted_insertionSort scoreGE _).sublist
      (List.take_sublist 3 _)
  · intro q
    have h1 : ((sortScored (scoredExamples (tokenize text) memory)).take
        3).filter (fun p => decide (p.1 = q)) <+:
        (sortScored (scoredExamples (tokenize text) memory)).filter
          (fun p => decide (p.1 = q)) :=
      (List.take_prefix 3 _).filter _
    rw [filter_sortScored] at h1
    exact h1

/-- Witness store record: a one-token summary. -/
def wrecApple : MemoryRecord := ⟨"apple", Json.null, Json.arr []⟩

/-- Witness store record: a two-token summary. -/
def wrecAppleBanana : MemoryRecord := ⟨"apple banana", Json.null, Json.arr []⟩

/-- Witness store record: a three-token summary. -/
def wrecAppleBananaCherry : MemoryRecord :=
  ⟨"apple banana cherry", Json.null, Json.arr []⟩

/-- Witness store record: a summary sharing no token with the witness
query. -/
def wrecDurian : MemoryRecord := ⟨"durian", Json.null, Json.arr []⟩

/-- Witness store for the matcher claims. -/
def memStoreW : List MemoryRecord :=
  [wrecApple, wrecAppleBanana, wrecAppleBananaCherry, wrecDurian]

/-- Witness for the matcher contract: on a concrete store the matcher
reorders the three overlapping records by descending score, drops the
zero-score record, and the top entry instantiates the general theorem. -/
theorem C1_matcher_witness :
    find_similar_examples "apple banana cherry" memStoreW 3 =
      [wrecAppleBananaCherry, wrecAppleBanana, wrecApple] ∧
    (find_similar_examples "apple banana cherry" memStoreW 3).length ≤ 3 ∧
    (0 < ((1 : ℚ), wrecAppleBananaCherry).1 ∧
      ((1 : ℚ), wrecAppleBananaCherry).1 =
        jaccardScore (tokenize "apple banana cherry")
          (tokenize wrecAppleBananaCherry.summary) ∧
      wrecAppleBananaCherry ∈ memStoreW) :=
  ⟨rfl,
   (C1_matcher_top3_sorted_positive "apple banana cherry" memStoreW).1,
   (C1_matcher_top3_sorted_positive "apple banana cherry" memStoreW).2.2.1
     ((1 : ℚ), wrecAppleBananaCherry)
     (by
       have h : (sortScored (scoredExamples (tokenize "apple banana cherry")
           memStoreW)).take 3 =
           [((1 : ℚ), wrecAppleBananaCherry), (mkRat 2 3, wrecAppleBanana),
             (mkRat 1 3, wrecApple)] := rfl
       rw [h]
       exact List.mem_cons_self _ _)⟩

/-- C5: every write to the memory store goes through `save_memory`,
which leaves at most `MAX_MEMORY_ITEMS = 25` records; and recording
feedback against a store already holding 25 records keeps 25 records,
dropping the oldest (the head) and appending the new record at the
end. -/
theorem C5_memory_cap_and_fifo :
    (∀ memory : List MemoryRecord,
      (save_memory memory).length ≤ MAX_MEMORY_ITEMS) ∧
    (∀ (s : String) (ai ed : Json) (store : List MemoryRecord),
      s ≠ "" → store.length = 25 →
      record_feedback s ai ed store = store.tail ++ [⟨s, ai, ed⟩] ∧
        (record_feedback s ai ed store).length = 25) := by
  constructor
  · intro memory
    simp only [save_memory, List.length_drop]
    omega
  · intro s ai ed store hs hlen
    have h1 : record_feedback s ai ed store =
        store.tail ++ [⟨s, ai, ed⟩] := by
      unfold record_feedback save_memory MAX_MEMORY_ITEMS
      rw [if_neg hs]
      have hl : (store ++ [(⟨s, ai, ed⟩ : MemoryRecord)]).length = 26 := by
        simp [hlen]
      rw [hl]
      have h26 : (26 : Nat) - 25 = 1 := rfl
      rw [h26, List.drop_append_of_le_length (by omega), List.drop_one]
    refine ⟨h1, ?_⟩
    rw [h1]
    simp [List.length_tail, hlen]

/-- Witness for the memory cap: a store of 25 records receives a 26th
record; the oldest is evicted and the length stays 25. -/
theorem C5_memory_cap_witness :
    ("s" : String) ≠ "" ∧
    (List.replicate 25 wrecDurian).length = 25 ∧
    record_feedback "s" Json.null Json.null (List.replicate 25 wrecDurian) =
      List.replicate 24 wrecDurian ++ [⟨"s", Json.null, Json.null⟩] ∧
    (record_feedback "s" Json.null Json.null
      (List.replicate 25 wrecDurian)).length = 25 :=
  ⟨by decide, by simp,
   by
     have h := (C5_memory_cap_and_fifo.2 "s" Json.null Json.null
       (List.replicate 25 wrecDurian) (by decide) (by simp)).1
     rw [h]
     rfl,
   (C5_memory_cap_and_fifo.2 "s" Json.null Json.null
     (List.replicate 25 wrecDurian) (by decide) (by simp)).2⟩

/-- C7: a query whose token set is empty yields no examples, whatever
the store holds. -/
theorem C7_empty_query_no_examples (text : String)
    (memory : List MemoryRecord) (h : tokenize text = ∅) :
    find_similar_examples text memory 3 = [] := by
  unfold find_similar_examples
  by_cases hm : memory.isEmpty <;> simp [hm, h]

/-- Witness for the empty-token-set claim: a pure punctuation query
against a nonempty store. -/
theorem C7_empty_query_witness :
    tokenize "!!! ???" = ∅ ∧
    find_similar_examples "!!! ???" memStoreW 3 = [] :=
  ⟨rfl, C7_empty_query_no_examples "!!! ???" memStoreW rfl⟩

/-- C10: loading the memory store is total: a missing file and contents
that fail to decode as JSON both load as the empty list, so every
downstream reader sees a corrupt or missing store as an empty store. -/
theorem C10_load_memory_total :
    load_memory none = Json.arr [] ∧
    (∀ s : String, jsonParse s = none → load_memory (some s) = Json.arr []) := by
  refine ⟨rfl, fun s h => ?_⟩
  simp [load_memory, h]

/-- Witness for total loading: concrete corrupt contents load as the
empty list. -/
theorem C10_load_memory_witness :
    jsonParse "corrupt \x7b not json" = none ∧
    load_memory (some "corrupt \x7b not json") = Json.arr [] :=
  ⟨rfl, C10_load_memory_total.2 "corrupt \x7b not json" rfl⟩

/-- A successful strict parse of the full text is taken as is. -/
theorem parseStage_of_full {text : String} {v : Json}
    (h : jsonParse text = some v) : parseStage text = .ok v := by
  simp [parseStage, h]

/-- When the strict parse fails and the brace slice parses, the parse
step yields the parsed slice. -/
theorem parseStage_of_slice {text sub : String} {v : Json}
    (h : jsonParse text = none) (hs : sliceBraces text = some sub)
    (hv : jsonParse sub = some v) : parseStage text = .ok v := by
  simp [parseStage, h, hs, hv]

/-- When both parse attempts fail, the parse step reports the error
carrying the first 2000 characters of the raw text. -/
theorem parseStage_of_both_fail {text : String}
    (h : jsonParse text = none)
    (hall : ∀ sub, sliceBraces text = some sub → jsonParse sub = none) :
    parseStage text = .error (text.take 2000) := by
  unfold parseStage
  rw [h]
  cases hsl : sliceBraces text with
  | none => rfl
  | some sub => simp [hall sub hsl]

/-- C3: the reply parser first attempts a strict parse of the full
text; on failure it parses the slice from the first opening brace to
the last closing brace; and when both attempts fail it reports the
error carrying the first 2000 characters of the raw text. -/
theorem C3_parse_fallback_chain (text : String) :
    (∀ v, jsonParse text = some v → parseStage text = .ok v) ∧
    (jsonParse text = none →
      ∀ sub v, sliceBraces text = some sub → jsonParse sub = some v →
        parseStage text = .ok v) ∧
    (jsonParse text = none →
      (∀ sub, sliceBraces text = some sub → jsonParse sub = none) →
      parseStage text = .error (text.take 2000)) :=
  ⟨fun _ h => parseStage_of_full h,
   fun h _ _ hs hv => parseStage_of_slice h hs hv,
   fun h hall => parseStage_of_both_fail h hall⟩

/-- Witness for the parse chain: a full strict parse, a recovery from a
brace slice, and a double failure carrying the raw text. -/
theorem C3_parse_fallback_witness :
    parseStage "\x7b\x22todos\x22: []\x7d" =
      .ok (Json.obj [("todos", Json.arr [])]) ∧
    parseStage "x \x7b\x22a\x22: 1\x7d y" =
      .ok (Json.obj [("a", Json.num 1)]) ∧
    parseStage "\x7d@@\x7b" = .error ("\x7d@@\x7b".take 2000) :=
  ⟨(C3_parse_fallback_chain "\x7b\x22todos\x22: []\x7d").1
     (Json.obj [("todos", Json.arr [])]) rfl,
   (C3_parse_fallback_chain "x \x7b\x22a\x22: 1\x7d y").2.1 rfl
     "\x7b\x22a\x22: 1\x7d" (Json.obj [("a", Json.num 1)]) rfl rfl,
   (C3_parse_fallback_chain "\x7d@@\x7b").2.2 rfl
     (fun sub h => by
       have h2 : some "" = some sub := h
       rw [← Option.some.inj h2]
       rfl)⟩

/-- The character list of a concatenation is the concatenation of the
character lists. -/
theorem strToList_append (a b : String) :
    (a ++ b).toList = a.toList ++ b.toList := rfl

/-- Rebuilding a string from its character list is the identity. -/
theorem strMk_toList (s : String) : String.mk s.toList = s := rfl

/-- Searching a concatenation whose first part misses the character
finds the first occurrence in the second part, shifted. -/
theorem firstIdx_append_of_not_mem {c : Char} {l1 : List Char}
    (l2 : List Char) (h : c ∉ l1) :
    firstIdx c (l1 ++ l2) = (firstIdx c l2).map (· + l1.length) := by
  induction l1 with
  | nil =>
    simp only [List.nil_append, List.length_nil]
    cases h2 : firstIdx c l2 <;> simp [h2]
  | cons x xs ih =>
    have hx : x ≠ c := fun he => h (he ▸ List.mem_cons_self x xs)
    have hxs : c ∉ xs := fun hm => h (List.mem_cons_of_mem x hm)
    have ih2 := ih hxs
    show (if x = c then some 0 else (firstIdx c (xs ++ l2)).map (· + 1)) =
      (firstIdx c l2).map (· + (x :: xs).length)
    rw [if_neg hx, ih2]
    cases h2 : firstIdx c l2 with
    | none => simp
    | some a =>
      simp
      omega

/-- The first index of the head character is zero. -/
theorem firstIdx_cons_self (c : Char) (l : List Char) :
    firstIdx c (c :: l) = some 0 := by
  simp [firstIdx]

/-- The brace slice of a well-bracketed text surrounded by prose free
of confusing braces is exactly the bracketed core: the first opening
brace of the whole text is the head of the core and the last closing
brace is its last character. -/
theorem sliceBraces_concat (pre sub post : String)
    (hpre : '{' ∉ pre.toList) (hpost : '}' ∉ post.toList)
    (hhead : sub.toList.head? = some '{')
    (hlast : sub.toList.getLast? = some '}') :
    sliceBraces (pre ++ sub ++ post) = some sub := by
  obtain ⟨t, ht⟩ : ∃ t, sub.toList = '{' :: t := by
    cases hsl : sub.toList with
    | nil => rw [hsl] at hhead; simp at hhead
    | cons x xs =>
      rw [hsl] at hhead
      simp at hhead
      exact ⟨xs, by rw [hhead]⟩
  obtain ⟨t2, ht2⟩ : ∃ t2, sub.toList.reverse = '}' :: t2 := by
    cases hsl : sub.toList.reverse with
    | nil =>
      rw [← List.head?_reverse, hsl] at hlast
      simp at hlast
    | cons x xs =>
      rw [← List.head?_reverse, hsl] at hlast
      simp at hlast
      exact ⟨xs, by rw [hlast]⟩
  have hcs : (pre ++ sub ++ post).toList =
      pre.toList ++ sub.toList ++ post.toList := by
    rw [strToList_append, strToList_append]
  have hlen1 : 1 ≤ sub.toList.length := by
    rw [ht]; simp
  have hfi : firstIdx '{' (pre ++ sub ++ post).toList =
      some pre.toList.length := by
    rw [hcs, List.append_assoc, firstIdx_append_of_not_mem _ hpre, ht]
    simp [firstIdx_cons_self]
  have hrev : (pre ++ sub ++ post).toList.reverse =
      post.toList.reverse ++ (sub.toList.reverse ++ pre.toList.reverse) := by
    rw [hcs]
    simp [List.reverse_append]
  have hpost' : '}' ∉ post.toList.reverse := by
    rw [List.mem_reverse]; exact hpost
  have hfi2 : firstIdx '}' (pre ++ sub ++ post).toList.reverse =
      some post.toList.length := by
    rw [hrev, firstIdx_append_of_not_mem _ hpost', ht2]
    simp [firstIdx_cons_self]
  have hlentot : (pre ++ sub ++ post).toList.length =
      pre.toList.length + sub.toList.length + post.toList.length := by
    rw [hcs, List.length_append, List.length_append]
  have hli : lastIdx '}' (pre ++ sub ++ post).toList =
      some (pre.toList.length + sub.toList.length - 1) := by
    unfold lastIdx
    rw [hfi2]
    show some ((pre ++ sub ++ post).toList.length - 1 - post.toList.length) =
      some (pre.toList.length + sub.toList.length - 1)
    rw [hlentot]
    congr 1
    omega
  have harith : pre.toList.length + sub.toList.length - 1 + 1 -
      pre.toList.length = sub.toList.length := by omega
  unfold sliceBraces
  simp only [hfi, hli]
  rw [hcs, List.append_assoc, harith, List.drop_left, List.take_left,
    strMk_toList]

/-- Counterexample to C4 as stated: leading prose that itself contains
an opening brace defeats the brace-slice recovery, so the prose-wrapped
text fails with a parse error while the bare object normalizes.  The
input "see \x7b hmm " ++ object is a single well-formed JSON object
surrounded by leading prose, yet the results differ. -/
theorem C4_prose_recovery_counterexample :
    parseAndNormalize (fun n => String.mk (List.replicate (n + 1) 'u'))
        "see \x7b hmm \x7b\x22todos\x22: []\x7d" =
      .parseError ("see \x7b hmm \x7b\x22todos\x22: []\x7d".take 2000) ∧
    parseAndNormalize (fun n => String.mk (List.replicate (n + 1) 'u'))
        "\x7b\x22todos\x22: []\x7d" = .items [] ∧
    parseAndNormalize (fun n => String.mk (List.replicate (n + 1) 'u'))
        "see \x7b hmm \x7b\x22todos\x22: []\x7d" ≠
      parseAndNormalize (fun n => String.mk (List.replicate (n + 1) 'u'))
        "\x7b\x22todos\x22: []\x7d" := by
  have h1 : parseAndNormalize (fun n => String.mk (List.replicate (n + 1) 'u'))
      "see \x7b hmm \x7b\x22todos\x22: []\x7d" =
      .parseError ("see \x7b hmm \x7b\x22todos\x22: []\x7d".take 2000) := rfl
  have h2 : parseAndNormalize (fun n => String.mk (List.replicate (n + 1) 'u'))
      "\x7b\x22todos\x22: []\x7d" = .items [] := rfl
  refine ⟨h1, h2, ?_⟩
  rw [h1, h2]
  exact fun h => NormResult.noConfusion h

/-- C4 amended: for every raw text consisting of a single well-formed
JSON object (beginning with its opening brace and ending with its
closing brace) surrounded by leading prose containing no opening brace
and trailing prose containing no closing brace, where the surrounding
prose makes the whole text fail the strict parse, parsing and
normalizing the text yields exactly the result of parsing and
normalizing the bare object. -/
theorem C4_prose_recovery (supply : Nat → String) (pre sub post : String)
    (v : Json)
    (hpre : '{' ∉ pre.toList) (hpost : '}' ∉ post.toList)
    (hhead : sub.toList.head? = some '{')
    (hlast : sub.toList.getLast? = some '}')
    (hfail : jsonParse (pre ++ sub ++ post) = none)
    (hsub : jsonParse sub = some v) :
    parseAndNormalize supply (pre ++ sub ++ post) =
      parseAndNormalize supply sub := by
  have hslice := sliceBraces_concat pre sub post hpre hpost hhead hlast
  unfold parseAndNormalize
  rw [parseStage_of_slice hfail hslice hsub, parseStage_of_full hsub]

/-- Witness for the amended recovery claim: ordinary prose (no stray
braces) around a concrete object normalizes exactly like the bare
object. -/
theorem C4_prose_recovery_witness :
    ('{' ∉ ("Sure! Here is the JSON: " : String).toList) ∧
    ('}' ∉ (" Hope this helps." : String).toList) ∧
    jsonParse ("Sure! Here is the JSON: " ++ "\x7b\x22todos\x22: []\x7d" ++
      " Hope this helps.") = none ∧
    jsonParse "\x7b\x22todos\x22: []\x7d" =
      some (Json.obj [("todos", Json.arr [])]) ∧
    parseAndNormalize (fun n => String.mk (List.replicate (n + 1) 'v'))
        ("Sure! Here is the JSON: " ++ "\x7b\x22todos\x22: []\x7d" ++
          " Hope this helps.") =
      parseAndNormalize (fun n => String.mk (List.replicate (n + 1) 'v'))
        "\x7b\x22todos\x22: []\x7d" :=
  ⟨by decide, by decide, rfl, rfl,
   C4_prose_recovery (fun n => String.mk (List.replicate (n + 1) 'v'))
     "Sure! Here is the JSON: " "\x7b\x22todos\x22: []\x7d"
     " Hope this helps." (Json.obj [("todos", Json.arr [])])
     (by decide) (by decide) rfl rfl rfl rfl⟩

/-- Joining a line onto a nonempty rest inserts one newline. -/
theorem joinLines_cons (a : String) (ls : List String) (h : ls ≠ []) :
    joinLines (a :: ls) = a ++ "\n" ++ joinLines ls := by
  cases ls with
  | nil => exact absurd rfl h
  | cons b t => rfl

/-- Every line of the join occurs inside the joined string. -/
theorem strContains_of_mem_joinLines {x : String} :
    ∀ ls : List String, x ∈ ls → strContains (joinLines ls) x := by
  intro ls
  induction ls with
  | nil => intro h; simp at h
  | cons a t ih =>
    intro h
    cases t with
    | nil =>
      have hx : x = a := by simpa using h
      subst hx
      exact List.infix_refl _
    | cons b t2 =>
      rcases List.mem_cons.mp h with he | hm
      · subst he
        show x.toList <:+: ((x ++ "\n") ++ joinLines (b :: t2)).toList
        rw [strToList_append, strToList_append]
        exact ((List.prefix_append x.toList "\n".toList).trans
          (List.prefix_append _ _)).isInfix
      · have hin := ih hm
        show x.toList <:+: ((a ++ "\n") ++ joinLines (b :: t2)).toList
        rw [strToList_append]
        exact hin.trans (List.suffix_append _ _).isInfix

/-- The last line of the join is a suffix of the joined string. -/
theorem strEndsWith_joinLines_concat (x : String) :
    ∀ ls : List String, strEndsWith (joinLines (ls ++ [x])) x := by
  intro ls
  induction ls with
  | nil => exact List.suffix_refl _
  | cons a t ih =>
    have hne : t ++ [x] ≠ [] := by simp
    show strEndsWith (joinLines (a :: (t ++ [x]))) x
    rw [joinLines_cons a (t ++ [x]) hne]
    show x.toList <:+ ((a ++ "\n") ++ joinLines (t ++ [x])).toList
    rw [strToList_append]
    exact ih.trans (List.suffix_append _ _)

/-- Counterexample to the delimiter guarantee of C6: the triple-quote
delimiter occurs inside this input text, and the built prompt embeds
the input literally, unescaped, between the same delimiters, so the
wrapping token sequence is not guaranteed to be absent from the
input. -/
theorem C6_delimiter_counterexample :
    strContains "x\x22\x22\x22y" tripleQuote ∧
    strContains (build_prompt "x\x22\x22\x22y" "专业简洁" [])
      (tripleQuote ++ "x\x22\x22\x22y" ++ tripleQuote) := by
  constructor
  · decide
  · exact strContains_of_mem_joinLines _ (by simp [promptLines])

/-- C6 amended: the built prompt contains the rule line with the tone
label interpolated, one serialized record per example (its summary
truncated to 500 characters together with its approved output), the
literal input text wrapped in triple-quote delimiters (without
escaping, so the delimiter may also occur inside the input), and ends
with the trailing JSON-only instruction; prompt building is a pure
function of its arguments. -/
theorem C6_prompt_contents (summaryText toneChoice : String)
    (examples : List MemoryRecord) :
    strContains (build_prompt summaryText toneChoice examples)
      (toneLine toneChoice) ∧
    (∀ ex ∈ examples,
      strContains (build_prompt summaryText toneChoice examples)
        (exampleLine ex)) ∧
    strContains (build_prompt summaryText toneChoice examples)
      (tripleQuote ++ summaryText ++ tripleQuote) ∧
    strEndsWith (build_prompt summaryText toneChoice examples)
      "Return valid JSON only." := by
  refine ⟨?_, ?_, ?_, ?_⟩
  · exact strContains_of_mem_joinLines _ (by simp [promptLines])
  · intro ex hex
    have hne : examples.isEmpty = false := by
      cases examples
      · simp at hex
      · simp
    refine strContains_of_mem_joinLines _ ?_
    simp only [promptLines, hne, Bool.false_eq_true, if_false,
      List.mem_append, List.mem_cons, List.mem_map]
    exact Or.inl (Or.inr (Or.inr ⟨ex, hex, rfl⟩))
  · exact strContains_of_mem_joinLines _ (by simp [promptLines])
  · have hshape : promptLines summaryText toneChoice examples =
        (promptHeader ++ [toneLine toneChoice] ++
          (if examples.isEmpty then []
           else
             "Use the patterns from these previously approved todos when relevant:" ::
               examples.map exampleLine) ++
          ["Meeting summary:",
            tripleQuote ++ summaryText ++ tripleQuote]) ++
        ["Return valid JSON only."] := by
      simp [promptLines]
    rw [build_prompt, hshape]
    exact strEndsWith_joinLines_concat _ _

/-- Witness for the prompt contents: a concrete input, tone and a
one-record example list. -/
theorem C6_prompt_contents_witness :
    strContains (build_prompt "meeting notes" "温柔贴心" [wrecApple])
      (toneLine "温柔贴心") ∧
    strContains (build_prompt "meeting notes" "温柔贴心" [wrecApple])
      (exampleLine wrecApple) ∧
    strContains (build_prompt "meeting notes" "温柔贴心" [wrecApple])
      (tripleQuote ++ "meeting notes" ++ tripleQuote) ∧
    strEndsWith (build_prompt "meeting notes" "温柔贴心" [wrecApple])
      "Return valid JSON only." :=
  ⟨(C6_prompt_contents "meeting notes" "温柔贴心" [wrecApple]).1,
   (C6_prompt_contents "meeting notes" "温柔贴心" [wrecApple]).2.1 wrecApple
     (List.mem_cons_self _ _),
   (C6_prompt_contents "meeting notes" "温柔贴心" [wrecApple]).2.2.1,
   (C6_prompt_contents "meeting notes" "温柔贴心" [wrecApple]).2.2.2⟩

/-- C8: when the generation reply is nonempty yet unparsable (the
strict parse and the brace-slice parse both fail), the handler surfaces
the parse error with the first 2000 characters of the reply and leaves
the whole session state, in particular the to-do list, unchanged. -/
theorem C8_parse_error_session_unchanged (supply : Nat → String)
    (reply summary : String) (st : SessionState)
    (hsum1 : summary ≠ "") (hsum2 : 10 ≤ pyStripLen summary)
    (hreply : reply ≠ "")
    (hfail : jsonParse reply = none)
    (hslice : ∀ sub, sliceBraces reply = some sub → jsonParse sub = none) :
    generateHandler supply true reply summary st =
      some (st, .failed (some (reply.take 2000))) := by
  have hcond : ¬ (summary = "" ∨ pyStripLen summary < 10) := by
    push_neg
    exact ⟨hsum1, by omega⟩
  have hps := parseStage_of_both_fail hfail hslice
  simp only [generateHandler, if_neg hcond, callOpenaiGenerate,
    parseAndNormalize, hps, not_true, if_neg hreply]
  simp

/-- Witness for the unchanged session: a fresh session (no list yet)
and a concrete garbage reply. -/
theorem C8_parse_error_witness :
    ("a meeting summary" : String) ≠ "" ∧
    10 ≤ pyStripLen "a meeting summary" ∧
    jsonParse "complete garbage reply" = none ∧
    generateHandler (fun n => String.mk (List.replicate (n + 1) 'w')) true
        "complete garbage reply" "a meeting summary" ⟨none, none, none⟩ =
      some (⟨none, none, none⟩,
        .failed (some ("complete garbage reply".take 2000))) :=
  ⟨by decide, by decide, rfl,
   C8_parse_error_session_unchanged _ _ _ _ (by decide) (by decide)
     (by decide) rfl (fun sub h => nomatch h)⟩

/-- The mocked generation reply of the flower-ordering scenario. -/
def mockedFlowerReply : String :=
  "\x7b\x22todos\x22:[\x7b\x22category\x22:\x22purchase\x22,\x22task_zh\x22:\x22预订鲜花\x22,\x22task_en\x22:\x22Order flowers\x22,\x22assign_to\x22:\x22Flora\x22,\x22urgency\x22:\x22high\x22,\x22ddl\x22:\x222024-06-07\x22\x7d]\x7d"

/-- A fresh-id supply for the scenario runs. -/
def supplyU (n : Nat) : String := String.mk (List.replicate (n + 1) 'u')

/-- The single TodoItem the source actually produces from the mocked
flower reply: the keys `category`, `task_zh` and `task_en` are not part
of the schema read by the normalizer and are dropped, so `todo_type`,
`purchase_item` and `action` fall back to their defaults. -/
def flowerItem : TodoItem :=
  { id := Json.str (supplyU 0),
    todo_type := Json.str "action",
    purchase_item := Json.str "",
    action := Json.str "",
    assign_to := Json.str "Flora",
    urgency := Json.str "high",
    ddl := Json.str "2024-06-07",
    done := false }

/-- Counterexample to C9 as stated: the mocked reply does normalize to
exactly one TodoItem with a generated id and `done = false`, but the
item does not carry the claimed `category`/`task_zh`/`task_en` values:
those keys are dropped and `todo_type` and the action text are left at
their defaults instead of "purchase" and "Order flowers". -/
theorem C9_flower_scenario_counterexample :
    parseAndNormalize supplyU mockedFlowerReply = .items [flowerItem] ∧
    flowerItem.todo_type ≠ Json.str "purchase" ∧
    flowerItem.action ≠ Json.str "Order flowers" ∧
    flowerItem.purchase_item ≠ Json.str "预订鲜花" := by
  refine ⟨rfl, ?_, ?_, ?_⟩ <;> simp [flowerItem]

/-- C9 amended: the mocked flower reply normalizes to exactly one
TodoItem with a freshly generated id and `done = false`, carrying the
schema fields present in the reply (`assign_to`, `urgency`, `ddl`)
while the non-schema keys (`category`, `task_zh`, `task_en`) are
dropped and `todo_type`, `purchase_item` and `action` take their
defaults. -/
theorem C9_flower_scenario_normalization :
    parseAndNormalize supplyU mockedFlowerReply = .items [flowerItem] :=
  rfl

/-- Whether the normalizer draws a fresh id for an element: the id
value is absent or falsy (`todo.get("id") or str(uuid.uuid4())`). -/
def needsFreshId : Json → Bool
  | .obj kvs => !((objGet kvs "id").getD Json.null).truthy
  | _ => true

/-- Number of elements of the list for which a fresh id is drawn. -/
def freshCount (l : List Json) : Nat := (l.filter needsFreshId).length

/-- Fresh-id counting distributes over concatenation. -/
theorem freshCount_append (a b : List Json) :
    freshCount (a ++ b) = freshCount a + freshCount b := by
  simp [freshCount, List.filter_append]

/-- Fresh-id counting over a cons. -/
theorem freshCount_cons (t : Json) (l : List Json) :
    freshCount (t :: l) =
      (if needsFreshId t then 1 else 0) + freshCount l := by
  simp only [freshCount, List.filter_cons]
  cases h : needsFreshId t <;> simp [Nat.add_comm]

/-- A fresh draw strictly increases the running fresh count. -/
theorem freshCount_take_lt {l : List Json} {i j : Nat} {e : Json}
    (hij : i < j) (he : l[i]? = some e) (hf : needsFreshId e = true) :
    freshCount (l.take i) < freshCount (l.take j) := by
  have h1 : l.take (i + 1) = l.take i ++ [e] := by
    rw [List.take_succ, he]
    rfl
  have h2 : freshCount (l.take (i + 1)) = freshCount (l.take i) + 1 := by
    rw [h1, freshCount_append]
    simp [freshCount, List.filter_cons, hf]
  have h3 : l.take j = l.take (i + 1) ++ (l.take j).drop (i + 1) := by
    conv_lhs => rw [← List.take_append_drop (i + 1) (l.take j)]
    rw [List.take_take, Nat.min_eq_left (by omega)]
  have h4 : freshCount (l.take (i + 1)) ≤ freshCount (l.take j) := by
    rw [h3, freshCount_append]
    omega
  omega

/-- The per-element contract of the normalizer at running fresh count
`c`: every schema field is the element value, or its fixed default
when the key is absent; a truthy id is kept and a falsy or absent id
becomes the next fresh id, counting the fresh draws of the preceding
elements. -/
def cleanSpec (supply : Nat → String) (c : Nat) (elems : List Json)
    (items : List TodoItem) : Prop :=
  ∀ i e it, elems[i]? = some e → items[i]? = some it →
    ∀ kvs, e = Json.obj kvs →
      (it.todo_type = (objGet kvs "todo_type").getD (Json.str "action") ∧
       it.purchase_item = (objGet kvs "purchase_item").getD (Json.str "") ∧
       it.action = (objGet kvs "action").getD (Json.str "") ∧
       it.assign_to = (objGet kvs "assign_to").getD (Json.str "") ∧
       it.urgency = (objGet kvs "urgency").getD (Json.str "medium") ∧
       it.ddl = (objGet kvs "ddl").getD (Json.str "") ∧
       it.done = ((objGet kvs "done").getD (Json.bool false)).truthy) ∧
      (((objGet kvs "id").getD Json.null).truthy = true →
        it.id = (objGet kvs "id").getD Json.null) ∧
      (((objGet kvs "id").getD Json.null).truthy = false →
        it.id = Json.str (supply (c + freshCount (elems.take i))))

/-- The cleaning loop succeeds on a list of objects and satisfies the
per-element contract. -/
theorem cleanTodos_spec (supply : Nat → String) :
    ∀ (elems : List Json) (c : Nat),
    (∀ e ∈ elems, e.isObj = true) →
    ∃ items : List TodoItem,
      cleanTodos supply c elems = some items ∧
      items.length = elems.length ∧
      cleanSpec supply c elems items := by
  intro elems
  induction elems with
  | nil =>
    intro c _
    exact ⟨[], rfl, rfl, fun i e it he => by simp at he⟩
  | cons t ts ih =>
    intro c hobj
    have ht : t.isObj = true := hobj t (List.mem_cons_self _ _)
    obtain ⟨kvs0, rfl⟩ : ∃ kvs0, t = Json.obj kvs0 := by
      cases t <;> first
        | exact ⟨_, rfl⟩
        | simp [Json.isObj] at ht
    by_cases hid : ((objGet kvs0 "id").getD Json.null).truthy
    · obtain ⟨items', h1, h2, h3⟩ :=
        ih c (fun e he => hobj e (List.mem_cons_of_mem _ he))
      refine ⟨(⟨(objGet kvs0 "id").getD Json.null,
          getField kvs0 "todo_type" (Json.str "action"),
          getField kvs0 "purchase_item" (Json.str ""),
          getField kvs0 "action" (Json.str ""),
          getField kvs0 "assign_to" (Json.str ""),
          getField kvs0 "urgency" (Json.str "medium"),
          getField kvs0 "ddl" (Json.str ""),
          (getField kvs0 "done" (Json.bool false)).truthy⟩ : TodoItem) ::
            items', ?_, by simp [h2], ?_⟩
      · simp [cleanTodos, cleanTodo, hid, h1]
      · intro i e it he hit kvs heq
        cases i with
        | zero =>
          simp only [List.getElem?_cons_zero, Option.some.injEq] at he hit
          subst he
          subst hit
          cases heq
          refine ⟨⟨rfl, rfl, rfl, rfl, rfl, rfl, rfl⟩, fun _ => rfl,
            fun hcontra => ?_⟩
          rw [hid] at hcontra
          cases hcontra
        | succ i' =>
          simp only [List.getElem?_cons_succ] at he hit
          have hrec := h3 i' e it he hit kvs heq
          refine ⟨hrec.1, hrec.2.1, fun hfalse => ?_⟩
          rw [hrec.2.2 hfalse]
          congr 2
          rw [List.take_succ_cons, freshCount_cons]
          have : needsFreshId (Json.obj kvs0) = false := by
            simp [needsFreshId, hid]
          rw [this]
          simp
    · obtain ⟨items', h1, h2, h3⟩ :=
        ih (c + 1) (fun e he => hobj e (List.mem_cons_of_mem _ he))
      refine ⟨(⟨Json.str (supply c),
          getField kvs0 "todo_type" (Json.str "action"),
          getField kvs0 "purchase_item" (Json.str ""),
          getField kvs0 "action" (Json.str ""),
          getField kvs0 "assign_to" (Json.str ""),
          getField kvs0 "urgency" (Json.str "medium"),
          getField kvs0 "ddl" (Json.str ""),
          (getField kvs0 "done" (Json.bool false)).truthy⟩ : TodoItem) ::
            items', ?_, by simp [h2], ?_⟩
      · simp [cleanTodos, cleanTodo, hid, h1]
      · intro i e it he hit kvs heq
        cases i with
        | zero =>
          simp only [List.getElem?_cons_zero, Option.some.injEq] at he hit
          subst he
          subst hit
          cases heq
          refine ⟨⟨rfl, rfl, rfl, rfl, rfl, rfl, rfl⟩, fun hcontra => ?_,
            fun _ => ?_⟩
          · rw [hcontra] at hid
            exact absurd rfl hid
          · simp [freshCount]
        | succ i' =>
          simp only [List.getElem?_cons_succ] at he hit
          have hrec := h3 i' e it he hit kvs heq
          refine ⟨hrec.1, hrec.2.1, fun hfalse => ?_⟩
          rw [hrec.2.2 hfalse]
          congr 2
          rw [List.take_succ_cons, freshCount_cons]
          have hnf : needsFreshId (Json.obj kvs0) = true := by
            simp [needsFreshId, hid]
          rw [hnf, if_pos rfl]
          omega

/-- Counterexample to C2 as stated: `\x7b"todos": [5]\x7d` is a
well-formed JSON text of shape `\x7b"todos": [...]\x7d`, yet
normalizing it does not produce one TodoItem for its one element: the
code calls `.get` on the integer element, an uncaught `AttributeError`
modeled by `pyCrash`, so no TodoItem list is produced at all. -/
theorem C2_nonobject_element_counterexample :
    parseAndNormalize supplyU "\x7b\x22todos\x22: [5]\x7d" = .pyCrash ∧
    NormResult.pyCrash ≠ NormResult.items
      [⟨Json.str (supplyU 0), Json.str "action", Json.str "", Json.str "",
        Json.str "", Json.str "medium", Json.str "", false⟩] :=
  ⟨rfl, fun h => NormResult.noConfusion h⟩

/-- C2 amended: normalizing a well-formed JSON text of shape
`\x7b"todos": [...]\x7d` whose elements are all JSON objects produces
exactly one TodoItem per element, in order; each field is taken from
the element or filled with its fixed default when absent (`todo_type`
"action", `purchase_item`/`action`/`assign_to`/`ddl` the empty string,
`urgency` "medium", `done` false, with `done` read through Python
truthiness); a truthy id is kept and an absent or falsy id becomes a
fresh id from the supply, and with an injective supply the freshly
generated ids are pairwise distinct. -/
theorem C2_normalize_well_formed (supply : Nat → String) (text : String)
    (kvs : List (String × Json)) (elems : List Json)
    (hparse : jsonParse text = some (Json.obj kvs))
    (htodos : objGet kvs "todos" = some (Json.arr elems))
    (hobj : ∀ e ∈ elems, e.isObj = true) :
    ∃ items : List TodoItem,
      parseAndNormalize supply text = .items items ∧
      items.length = elems.length ∧
      cleanSpec supply 0 elems items ∧
      (Function.Injective supply →
        ∀ (i j : Nat) (ei ej : Json) (iti itj : TodoItem),
          elems[i]? = some ei → elems[j]? = some ej →
          items[i]? = some iti → items[j]? = some itj →
          needsFreshId ei = true → needsFreshId ej = true →
          i ≠ j → iti.id ≠ itj.id) := by
  obtain ⟨items, h1, h2, h3⟩ := cleanTodos_spec supply elems 0 hobj
  refine ⟨items, ?_, h2, h3, ?_⟩
  · unfold parseAndNormalize
    rw [parseStage_of_full hparse]
    simp [normalizeTodos, htodos, h1]
  · intro hinj i j ei ej iti itj hei hej hiti hitj hfi hfj hne
    have key : ∀ (a b : Nat) (ea eb : Json) (ita itb : TodoItem),
        elems[a]? = some ea → elems[b]? = some eb →
        items[a]? = some ita → items[b]? = some itb →
        needsFreshId ea = true → needsFreshId eb = true → a < b →
        ita.id ≠ itb.id := by
      intro a b ea eb ita itb hea heb hita hitb hfa hfb hab heq
      obtain ⟨kva, rfl⟩ : ∃ k, ea = Json.obj k := by
        have := hobj ea (List.getElem?_mem hea)
        cases ea <;> first
          | exact ⟨_, rfl⟩
          | simp [Json.isObj] at this
      obtain ⟨kvb, rfl⟩ : ∃ k, eb = Json.obj k := by
        have := hobj eb (List.getElem?_mem heb)
        cases eb <;> first
          | exact ⟨_, rfl⟩
          | simp [Json.isObj] at this
      have hta : ((objGet kva "id").getD Json.null).truthy = false := by
        simpa [needsFreshId] using hfa
      have htb : ((objGet kvb "id").getD Json.null).truthy = false := by
        simpa [needsFreshId] using hfb
      have ida := ((h3 a _ _ hea hita kva rfl).2.2) hta
      have idb := ((h3 b _ _ heb hitb kvb rfl).2.2) htb
      rw [ida, idb] at heq
      injection heq with heq2
      have heq3 := hinj heq2
      have hlt := freshCount_take_lt hab hea hfa
      omega
    rcases Nat.lt_or_ge i j with h | h
    · exact key i j ei ej iti itj hei hej hiti hitj hfi hfj h
    · have hji : j < i := by omega
      exact fun heq =>
        key j i ej ei itj iti hej hei hitj hiti hfj hfi hji heq.symm

/-- Concrete reply text for the normalization witness: two todo
objects, the first without id, the second with a truthy id and a done
flag. -/
def c2wText : String :=
  "\x7b\x22todos\x22: [\x7b\x22action\x22: \x22Call Bob\x22\x7d, \x7b\x22id\x22: \x22z9\x22, \x22done\x22: true\x7d]\x7d"

/-- The parsed top-level members of `c2wText`. -/
def c2wKvs : List (String × Json) :=
  [("todos", Json.arr
    [Json.obj [("action", Json.str "Call Bob")],
     Json.obj [("id", Json.str "z9"), ("done", Json.bool true)]])]

/-- The parsed `todos` elements of `c2wText`. -/
def c2wElems : List Json :=
  [Json.obj [("action", Json.str "Call Bob")],
   Json.obj [("id", Json.str "z9"), ("done", Json.bool true)]]

/-- Witness for the amended normalization claim at a concrete
well-formed text whose elements are objects. -/
theorem C2_normalize_witness :
    jsonParse c2wText = some (Json.obj c2wKvs) ∧
    objGet c2wKvs "todos" = some (Json.arr c2wElems) ∧
    (∀ e ∈ c2wElems, e.isObj = true) ∧
    (∃ items : List TodoItem,
      parseAndNormalize supplyU c2wText = .items items ∧
      items.length = 2) := by
  refine ⟨rfl, rfl, by decide, ?_⟩
  obtain ⟨items, h1, h2, _, _⟩ :=
    C2_normalize_well_formed supplyU c2wText c2wKvs c2wElems rfl rfl
      (by decide)
  exact ⟨items, h1, by rw [h2]; rfl⟩
